import Mathlib

/-!
Shallow embedding of `src/infercnvpy/tl/_scores.py` (functions `cnv_score`,
`ithgex`, `ithcna`) and proofs of the specification claims about them.

Modelling conventions:
* Matrices stored in the annotated data container are lists of rows of
  rationals (the repository works on numeric numpy arrays; exact rationals
  stand in for floats so that the arithmetic is exact).
* Pearson correlations involve square roots, so correlation matrices and
  the ith* scores live in `ℝ` (hence those definitions are noncomputable);
  everything up to the correlation entries remains kernel-reducible.
* Python exceptions are modelled by an `Except Err` result: the explicit
  `raise ValueError` in `cnv_score` becomes `Err.config`, a failed
  dictionary/column/obsm lookup becomes `Err.keyError`, and the `assert`
  in `ithgex`/`ithcna` becomes `Err.assertFail`.
* A successful call returns the optional group→score mapping (for
  `inplace=False`) together with the resulting data container, so that the
  mutate-or-return contract is visible in the result.
-/

/-- Matrix: a list of rows of rationals (cells × features). -/
abbrev Mat := List (List ℚ)

/-- ObsCol: one column of the per-cell annotation table `adata.obs`:
either categorical (strings) or numeric (the score columns that the
functions write are floating point, modelled by `ℝ`). -/
inductive ObsCol where
  | cat (vals : List String) : ObsCol
  | num (vals : List ℝ) : ObsCol

/-- AnnData: the in-memory annotated data container used by the module:
a primary matrix `X`, an optional `raw` matrix, named `layers` matrices,
named per-cell matrices `obsm`, and the per-cell annotation table `obs`
as an association list from column name to column. -/
structure AnnData where
  obs : List (String × ObsCol)
  obsm : List (String × Mat)
  X : Mat
  raw : Option Mat
  layers : List (String × Mat)

/-- nObs: number of cells, `adata.shape[0]`. -/
def AnnData.nObs (adata : AnnData) : Nat := adata.X.length

/-- hasCol: `groupby in adata.obs.columns`. -/
def hasCol (adata : AnnData) (k : String) : Bool := (adata.obs.lookup k).isSome

/-- getCat: read a categorical column of `adata.obs`; `none` models the
KeyError raised when the column is missing. -/
def getCat (adata : AnnData) (k : String) : Option (List String) :=
  match adata.obs.lookup k with
  | some (ObsCol.cat vs) => some vs
  | _ => none

/-- setCol: `table[key] = col` on an association list, replacing the first
binding of `key` if present, appending a new binding otherwise (pandas
column assignment). -/
def setCol (k : String) (c : ObsCol) : List (String × ObsCol) → List (String × ObsCol)
  | [] => [(k, c)]
  | (k', c') :: rest => if k' == k then (k, c) :: rest else (k', c') :: setCol k c rest

/-- setObsCol: `adata.obs[key] = col`. -/
def setObsCol (adata : AnnData) (k : String) (c : ObsCol) : AnnData :=
  { adata with obs := setCol k c adata.obs }

/-- uniqueFirst: `pandas.Series.unique` — distinct values in order of first
appearance. -/
def uniqueFirst : List String → List String
  | [] => []
  | x :: xs => x :: (uniqueFirst xs).filter (fun y => y != x)

/-- filterByLabel: `xs[labels == g]` — keep the entries of `xs` at the
positions whose label equals `g` (numpy boolean-mask row selection). -/
def filterByLabel {α : Type} (labels : List String) (g : String) (xs : List α) : List α :=
  ((labels.zip xs).filter (fun p => p.1 == g)).map (fun p => p.2)

/-- subsetCol: restrict one `obs` column to the cells of group `g`. -/
def subsetCol (labels : List String) (g : String) : ObsCol → ObsCol
  | ObsCol.cat vs => ObsCol.cat (filterByLabel labels g vs)
  | ObsCol.num vs => ObsCol.num (filterByLabel labels g vs)

/-- subsetAnn: `adata[adata.obs[groupby] == group, :]` — the row-subset
view of the container restricted to the cells of group `g`. -/
def subsetAnn (adata : AnnData) (labels : List String) (g : String) : AnnData :=
  { obs := adata.obs.map (fun p => (p.1, subsetCol labels g p.2))
    obsm := adata.obsm.map (fun p => (p.1, filterByLabel labels g p.2))
    X := filterByLabel labels g adata.X
    raw := adata.raw.map (filterByLabel labels g)
    layers := adata.layers.map (fun p => (p.1, filterByLabel labels g p.2)) }

/-- Modelled from the spec: `_choose_mtx_rep` from `infercnvpy._util` is not
part of the provided sources; per the spec it selects the expression matrix
by explicit precedence "layer > raw/primary per flag > default", where the
default is "use `.raw` if available, `.X` otherwise". `none` models a
KeyError/AttributeError for a missing layer or missing `.raw`. -/
def chooseMtxRep (adata : AnnData) (use_raw : Option Bool) (layer : Option String) : Option Mat :=
  match layer with
  | some l => adata.layers.lookup l
  | none =>
    match use_raw with
    | some true => adata.raw
    | some false => some adata.X
    | none =>
      match adata.raw with
      | some r => some r
      | none => some adata.X

/-- Err: the exception outcomes of the three functions: the explicit
`raise ValueError` configuration error of `cnv_score`, a KeyError from a
missing column / obsm key / layer / dictionary key, and an
AssertionError from the pcorr shape assert. -/
inductive Err where
  | config : Err
  | keyError : Err
  | assertFail : Err
deriving DecidableEq

/-- ScoreResult: outcome of a call — an error, or the optional mapping
(present exactly for `inplace=False`) together with the resulting data
container (unchanged for `inplace=False`, updated for `inplace=True`). -/
abbrev ScoreResult (α : Type) := Except Err (Option (List (String × α)) × AnnData)

/-- ratAbs: absolute value on `ℚ`, written with an executable comparison
so that the kernel can evaluate it (it equals `|q|`, see `ratAbs_eq_abs`). -/
def ratAbs (q : ℚ) : ℚ := if Rat.blt q 0 then -q else q

/-- meanAbs: `np.mean(np.abs(M))` over all entries of a matrix (the sum of
absolute values divided by the number of entries). -/
def meanAbs (M : Mat) : ℚ := ((M.flatten.map ratAbs).sum) / (M.flatten.length : ℚ)

/-- cnv_score from `src/infercnvpy/tl/_scores.py`: per-group mean absolute
CNV value. Defaults in the source: `groupby="cnv_leiden"`, `use_rep="cnv"`,
`key_added="cnv_score"`, `inplace=True` (defaults are passed explicitly
here). The deprecated `obs_key` alias merely rebinds `groupby` and is
omitted. -/
def cnv_score (adata : AnnData) (groupby : String) (use_rep : String)
    (key_added : String) (inplace : Bool) : ScoreResult ℚ :=
  if (!(hasCol adata groupby)) && (groupby == "cnv_leiden") then
    Except.error Err.config
  else
    match getCat adata groupby with
    | none => Except.error Err.keyError
    | some labels =>
      match adata.obsm.lookup ("X_" ++ use_rep) with
      | none => Except.error Err.keyError
      | some M =>
        let cluster_score : List (String × ℚ) :=
          (uniqueFirst labels).map (fun c => (c, meanAbs (filterByLabel labels c M)))
        if inplace then
          let score_array : List ℝ :=
            labels.map (fun c => (((cluster_score.lookup c).getD 0 : ℚ) : ℝ))
          Except.ok (none, setObsCol adata key_added (ObsCol.num score_array))
        else
          Except.ok (some cluster_score, adata)

/-- mean: arithmetic mean of a list of rationals. -/
def listMean (xs : List ℚ) : ℚ := xs.sum / (xs.length : ℚ)

/-- covRaw: the unnormalised centred dot product
`Σₖ (xₖ - mean x) * (yₖ - mean y)`. `np.corrcoef` divides the covariance
matrix entries by `sqrt(cov_ii * cov_jj)`, so the `1/(m-1)` normalisation
of `np.cov` cancels and is omitted here. -/
def covRaw (x y : List ℚ) : ℚ :=
  ((x.zip y).map (fun p => (p.1 - listMean x) * (p.2 - listMean y))).sum

/-- corr: Pearson correlation coefficient of two rows,
`cov(x,y) / (sqrt(cov(x,x)) * sqrt(cov(y,y)))`. In exact arithmetic the
value already lies in `[-1, 1]`, so numpy's final clipping is the
identity and is omitted. -/
noncomputable def corr (x y : List ℚ) : ℝ :=
  ((covRaw x y : ℚ) : ℝ) / (Real.sqrt ((covRaw x x : ℚ) : ℝ) * Real.sqrt ((covRaw y y : ℚ) : ℝ))

/-- corrcoef: `np.corrcoef(X, rowvar=True)` — the full pairwise Pearson
correlation matrix of the rows of `X`. -/
noncomputable def corrcoef (M : Mat) : List (List ℝ) :=
  M.map (fun r => M.map (fun s => corr r s))

/-- sortR: ascending sort of a list of reals (the sort performed inside
`np.percentile`). -/
noncomputable def sortR (xs : List ℝ) : List ℝ :=
  xs.mergeSort (fun a b => decide (a ≤ b))

/-- percentile: `np.percentile(xs, p)` with the default linear
interpolation: for sorted values `a₀ ≤ … ≤ aₙ₋₁` and position
`pos = p/100 * (n-1)`, the result is
`a_i + (pos - i) * (a_{i+1} - a_i)` where `i = ⌊pos⌋`. -/
noncomputable def percentile (p : ℚ) (xs : List ℝ) : ℝ :=
  let a := sortR xs
  let pos : ℚ := p * ((a.length : ℚ) - 1) / 100
  let i : Nat := Int.toNat ⌊pos⌋
  a.getD i 0 + ((pos - (i : ℚ) : ℚ) : ℝ) * (a.getD (i + 1) (a.getD i 0) - a.getD i 0)

/-- iqrOfCorr: interquartile range over all entries of the pairwise
correlation matrix of the rows of `X` — `q75 - q25` of the flattened
matrix, exactly as `np.percentile(pcorr, [75, 25])` flattens it. -/
noncomputable def iqrOfCorr (X : Mat) : ℝ :=
  percentile 75 (corrcoef X).flatten - percentile 25 (corrcoef X).flatten

/-- ithLoop: the per-group accumulation loop shared in shape by `ithgex`
and `ithcna`: iterate the per-group step over the group list, skipping
groups for which the step yields `none` and aborting on the first error;
successful scores are collected in iteration order. -/
def ithLoop (step : String → Except Err (Option ℝ)) : List String → Except Err (List (String × ℝ))
  | [] => Except.ok []
  | g :: gs =>
    match step g with
    | Except.error e => Except.error e
    | Except.ok none => ithLoop step gs
    | Except.ok (some s) =>
      match ithLoop step gs with
      | Except.error e => Except.error e
      | Except.ok rest => Except.ok ((g, s) :: rest)

/-- ithgexStep: the body of the `for group in groups` loop of `ithgex`:
subset the container to the group, choose the expression matrix, skip the
group when it has at most one cell, assert the correlation matrix is
(group size × group size), and produce the IQR of its entries. -/
noncomputable def ithgexStep (adata : AnnData) (labels : List String)
    (use_raw : Option Bool) (layer : Option String) (g : String) : Except Err (Option ℝ) :=
  let tmp := subsetAnn adata labels g
  match chooseMtxRep tmp use_raw layer with
  | none => Except.error Err.keyError
  | some X =>
    if X.length ≤ 1 then Except.ok none
    else
      let pcorr := corrcoef X
      if ((pcorr.length == tmp.nObs) && (pcorr.all (fun r => r.length == tmp.nObs))) then
        Except.ok (some (percentile 75 pcorr.flatten - percentile 25 pcorr.flatten))
      else Except.error Err.assertFail

/-- ithgexMapping: the group→score dictionary that `ithgex` builds before
its `inplace` branch. -/
noncomputable def ithgexMapping (adata : AnnData) (groupby : String)
    (use_raw : Option Bool) (layer : Option String) : Except Err (List (String × ℝ)) :=
  match getCat adata groupby with
  | none => Except.error Err.keyError
  | some labels => ithLoop (ithgexStep adata labels use_raw layer) (uniqueFirst labels)

/-- writeMask: `arr[labels == g] = s` — overwrite the positions of `arr`
whose label is `g` with the value `s`. -/
def writeMask : List String → List ℝ → String → ℝ → List ℝ
  | _, [], _, _ => []
  | [], a :: as_, _, _ => a :: as_
  | l :: ls, a :: as_, g, s => (if l == g then s else a) :: writeMask ls as_ g s

/-- broadcast: the `inplace=True` loop `for group in groups:
obs[labels == group] = scores[group]` — sequential masked writes into the
per-cell array; `none` models the KeyError raised by `scores[group]` when
a group is absent from the dictionary. -/
def broadcast (labels : List String) (scores : List (String × ℝ)) :
    List String → List ℝ → Option (List ℝ)
  | [], arr => some arr
  | g :: gs, arr =>
    match scores.lookup g with
    | none => none
    | some s => broadcast labels scores gs (writeMask labels arr g s)

/-- ithgexDefaultKeyAdded: the default of the `key_added` parameter of
`ithgex` in the source signature. -/
def ithgexDefaultKeyAdded : String := "ithgex"

/-- ithgex from `src/infercnvpy/tl/_scores.py`: per-group IQR of pairwise
expression correlations. Source defaults: `use_raw=None`, `layer=None`,
`inplace=True`, `key_added="ithgex"`. The uninitialised `np.empty` output
array is modelled by a zero-filled array; on every successful
`inplace=True` path each position is overwritten before the array becomes
observable. -/
noncomputable def ithgex (adata : AnnData) (groupby : String) (use_raw : Option Bool)
    (layer : Option String) (inplace : Bool) (key_added : String) : ScoreResult ℝ :=
  match getCat adata groupby with
  | none => Except.error Err.keyError
  | some labels =>
    match ithgexMapping adata groupby use_raw layer with
    | Except.error e => Except.error e
    | Except.ok scores =>
      if inplace then
        match broadcast labels scores (uniqueFirst labels) (List.replicate adata.nObs 0) with
        | none => Except.error Err.keyError
        | some arr => Except.ok (none, setObsCol adata key_added (ObsCol.num arr))
      else
        Except.ok (some scores, adata)

/-- ithcnaStep: the body of the `for group in groups` loop of `ithcna`:
identical to the `ithgex` loop body except that the matrix is
`tmp_adata.obsm[use_rep]`. -/
noncomputable def ithcnaStep (adata : AnnData) (labels : List String)
    (use_rep : String) (g : String) : Except Err (Option ℝ) :=
  let tmp := subsetAnn adata labels g
  match tmp.obsm.lookup use_rep with
  | none => Except.error Err.keyError
  | some X =>
    if X.length ≤ 1 then Except.ok none
    else
      let pcorr := corrcoef X
      if ((pcorr.length == tmp.nObs) && (pcorr.all (fun r => r.length == tmp.nObs))) then
        Except.ok (some (percentile 75 pcorr.flatten - percentile 25 pcorr.flatten))
      else Except.error Err.assertFail

/-- ithcnaMapping: the group→score dictionary that `ithcna` builds before
its `inplace` branch. -/
noncomputable def ithcnaMapping (adata : AnnData) (groupby : String)
    (use_rep : String) : Except Err (List (String × ℝ)) :=
  match getCat adata groupby with
  | none => Except.error Err.keyError
  | some labels => ithLoop (ithcnaStep adata labels use_rep) (uniqueFirst labels)

/-- ithcnaDefaultKeyAdded: the default of the `key_added` parameter of
`ithcna` in the source signature (the source literally writes
`key_added: str = "ithgex"`). -/
def ithcnaDefaultKeyAdded : String := "ithgex"

/-- ithcnaDefaultUseRep: the default of the `use_rep` parameter of
`ithcna` in the source signature. -/
def ithcnaDefaultUseRep : String := "X_cnv"

/-- ithcna from `src/infercnvpy/tl/_scores.py`: per-group IQR of pairwise
CNV-profile correlations. Source defaults: `use_rep="X_cnv"`,
`key_added="ithgex"`, `inplace=True`. -/
noncomputable def ithcna (adata : AnnData) (groupby : String) (use_rep : String)
    (inplace : Bool) (key_added : String) : ScoreResult ℝ :=
  match getCat adata groupby with
  | none => Except.error Err.keyError
  | some labels =>
    match ithcnaMapping adata groupby use_rep with
    | Except.error e => Except.error e
    | Except.ok scores =>
      if inplace then
        match broadcast labels scores (uniqueFirst labels) (List.replicate adata.nObs 0) with
        | none => Except.error Err.keyError
        | some arr => Except.ok (none, setObsCol adata key_added (ObsCol.num arr))
      else
        Except.ok (some scores, adata)

/-- ithStepWith: the spec-side generalisation used for the refinement
claim: the loop body of the ith* algorithm with the matrix source
abstracted into a function of the row-subset container. -/
noncomputable def ithStepWith (getX : AnnData → Option Mat) (adata : AnnData)
    (labels : List String) (g : String) : Except Err (Option ℝ) :=
  let tmp := subsetAnn adata labels g
  match getX tmp with
  | none => Except.error Err.keyError
  | some X =>
    if X.length ≤ 1 then Except.ok none
    else
      let pcorr := corrcoef X
      if ((pcorr.length == tmp.nObs) && (pcorr.all (fun r => r.length == tmp.nObs))) then
        Except.ok (some (percentile 75 pcorr.flatten - percentile 25 pcorr.flatten))
      else Except.error Err.assertFail

/-- ithWith: the spec-side generalisation of the whole ith* algorithm with
the matrix source abstracted: singleton-group skip, shape assertion,
IQR-of-correlations score, and mutate-or-return contract, parameterised by
how the per-group matrix is obtained. -/
noncomputable def ithWith (getX : AnnData → Option Mat) (adata : AnnData) (groupby : String)
    (inplace : Bool) (key_added : String) : ScoreResult ℝ :=
  match getCat adata groupby with
  | none => Except.error Err.keyError
  | some labels =>
    match (match getCat adata groupby with
           | none => Except.error Err.keyError
           | some labels' => ithLoop (ithStepWith getX adata labels') (uniqueFirst labels')) with
    | Except.error e => Except.error e
    | Except.ok scores =>
      if inplace then
        match broadcast labels scores (uniqueFirst labels) (List.replicate adata.nObs 0) with
        | none => Except.error Err.keyError
        | some arr => Except.ok (none, setObsCol adata key_added (ObsCol.num arr))
      else
        Except.ok (some scores, adata)

/-- exC1: the 4-cell dataset of the spec's concrete scenario: groups
[A,A,B,B] and CNV matrix rows [[0.1,-0.2],[0.3,-0.1],[1,1],[1,1]] stored
under `obsm["X_cnv"]`. -/
def exC1 : AnnData :=
  { obs := [("grp", ObsCol.cat ["A", "A", "B", "B"])]
    obsm := [("X_cnv", [[1/10, -1/5], [3/10, -1/10], [1, 1], [1, 1]])]
    X := [[0], [0], [0], [0]]
    raw := none
    layers := [] }

/-- exPair: a 2-cell dataset with a single group, used to instantiate the
ith* theorems on concrete data. -/
def exPair : AnnData :=
  { obs := [("grp", ObsCol.cat ["A", "A"])]
    obsm := [("X_cnv", [[1, 0], [0, 1]])]
    X := [[1, 2], [3, 5]]
    raw := none
    layers := [] }

/-- exSing: a 3-cell dataset whose group B is a singleton, used for the
singleton-group claims. -/
def exSing : AnnData :=
  { obs := [("grp", ObsCol.cat ["A", "A", "B"])]
    obsm := [("X_cnv", [[1, 0], [0, 1], [2, 2]])]
    X := [[1, 2], [3, 5], [0, 0]]
    raw := none
    layers := [] }

/-- sPairGex: the IQR-of-correlations score of a group whose expression
rows are [[1,2],[3,5]] (the single group of `exPair` and group A of
`exSing`). -/
noncomputable def sPairGex : ℝ :=
  percentile 75 (corrcoef [[1, 2], [3, 5]]).flatten -
    percentile 25 (corrcoef [[1, 2], [3, 5]]).flatten

/-- sPairCna: the IQR-of-correlations score of a group whose CNV rows are
[[1,0],[0,1]] (the single group of `exPair` and group A of `exSing` under
`obsm["X_cnv"]`). -/
noncomputable def sPairCna : ℝ :=
  percentile 75 (corrcoef [[1, 0], [0, 1]]).flatten -
    percentile 25 (corrcoef [[1, 0], [0, 1]]).flatten

/-- exPairCnvOut: the container produced by `cnv_score` on `exPair` with
`inplace=True`. -/
noncomputable def exPairCnvOut : AnnData :=
  setObsCol exPair "cnv_score" (ObsCol.num
    [((meanAbs [[(1 : ℚ), 0], [0, 1]] : ℚ) : ℝ), ((meanAbs [[(1 : ℚ), 0], [0, 1]] : ℚ) : ℝ)])

/-- exPairGexOut: the container produced by `ithgex` on `exPair` with
`inplace=True`. -/
noncomputable def exPairGexOut : AnnData :=
  setObsCol exPair "ithgex" (ObsCol.num [sPairGex, sPairGex])

/-- exPairCnaOut: the container produced by `ithcna` on `exPair` with
`inplace=True`. -/
noncomputable def exPairCnaOut : AnnData :=
  setObsCol exPair "ithgex" (ObsCol.num [sPairCna, sPairCna])

/-! Helper lemmas. -/

theorem ratAbs_eq_abs (q : ℚ) : ratAbs q = |q| := by
  unfold ratAbs
  rcases lt_or_le q 0 with h | h
  · rw [if_pos (by exact h), abs_of_neg h]
  · rw [if_neg (by simpa using not_lt.mpr h), abs_of_nonneg h]

theorem hasCol_true_of_getCat {adata : AnnData} {k : String} {labels : List String}
    (h : getCat adata k = some labels) : hasCol adata k = true := by
  unfold getCat at h
  unfold hasCol
  cases hl : adata.obs.lookup k with
  | none => rw [hl] at h; simp at h
  | some c => simp

theorem lookup_map_pair {α : Type} (f : String → α) (l : List String) (c : String)
    (h : c ∈ l) : (l.map (fun x => (x, f x))).lookup c = some (f c) := by
  induction l with
  | nil => simp at h
  | cons a l ih =>
    by_cases hc : c = a
    · subst hc
      simp [List.lookup]
    · rcases List.mem_cons.mp h with h' | h'
      · exact absurd h' hc
      · have hb : (c == a) = false := beq_eq_false_iff_ne.mpr hc
        simp only [List.map_cons, List.lookup, hb]
        exact ih h'

theorem mem_uniqueFirst {x : String} : ∀ {l : List String}, x ∈ uniqueFirst l ↔ x ∈ l := by
  intro l
  induction l with
  | nil => simp [uniqueFirst]
  | cons a l ih =>
    by_cases hx : x = a
    · subst hx; simp [uniqueFirst]
    · simp [uniqueFirst, List.mem_filter, hx, bne_iff_ne, ih]

theorem filterByLabel_nil {α : Type} (labels : List String) (g : String) :
    filterByLabel labels g ([] : List α) = [] := by
  cases labels <;> simp [filterByLabel]

theorem filterByLabel_cons {α : Type} (a : String) (ls : List String) (g : String)
    (x : α) (xs : List α) :
    filterByLabel (a :: ls) g (x :: xs) =
      if a == g then x :: filterByLabel ls g xs else filterByLabel ls g xs := by
  by_cases h : a == g
  · simp [filterByLabel, List.zip, List.filter, h]
  · simp only [Bool.not_eq_true] at h
    simp [filterByLabel, List.zip, List.filter, h]

theorem length_filterByLabel {α : Type} :
    ∀ (labels : List String) (xs : List α), labels.length = xs.length →
      ∀ g, (filterByLabel labels g xs).length = labels.count g := by
  intro labels
  induction labels with
  | nil => intro xs _ g; simp [filterByLabel, List.count]
  | cons a ls ih =>
    intro xs h g
    cases xs with
    | nil => simp at h
    | cons x xs =>
      simp only [List.length_cons, Nat.succ.injEq] at h
      rw [filterByLabel_cons, List.count_cons]
      by_cases hg : a == g
      · have hg' : (g == a) = true := by
          simp only [beq_iff_eq] at hg ⊢; exact hg.symm
        simp [hg, hg', ih xs h g]
      · have hg' : (g == a) = false := by
          simp only [beq_eq_false_iff_ne, ne_eq, beq_iff_eq] at hg ⊢
          exact fun e => hg e.symm
        simp [hg, hg', ih xs h g]

theorem length_writeMask : ∀ (ls : List String) (arr : List ℝ) (g : String) (s : ℝ),
    (writeMask ls arr g s).length = arr.length := by
  intro ls
  induction ls with
  | nil => intro arr g s; cases arr <;> simp [writeMask]
  | cons l ls ih =>
    intro arr g s
    cases arr with
    | nil => simp [writeMask]
    | cons a as_ => simp [writeMask, ih]

theorem writeMask_get? : ∀ (ls : List String) (arr : List ℝ) (g : String) (s : ℝ)
    (i : Nat) (l : String) (a : ℝ), ls.get? i = some l → arr.get? i = some a →
    (writeMask ls arr g s).get? i = some (if l == g then s else a) := by
  intro ls
  induction ls with
  | nil => intro arr g s i l a hl _; simp at hl
  | cons l0 ls ih =>
    intro arr g s i l a hl ha
    cases arr with
    | nil => simp at ha
    | cons a0 as_ =>
      cases i with
      | zero =>
        simp only [List.get?] at hl ha
        cases hl; cases ha
        simp [writeMask]
      | succ i =>
        simp only [List.get?] at hl ha
        simpa [writeMask] using ih as_ g s i l a hl ha

theorem broadcast_length : ∀ (gs : List String) (labels : List String)
    (scores : List (String × ℝ)) (arr arr' : List ℝ),
    broadcast labels scores gs arr = some arr' → arr'.length = arr.length := by
  intro gs
  induction gs with
  | nil => intro labels scores arr arr' h; simp [broadcast] at h; rw [h]
  | cons g gs ih =>
    intro labels scores arr arr' h
    simp only [broadcast] at h
    cases hs : scores.lookup g with
    | none => rw [hs] at h; simp at h
    | some s =>
      rw [hs] at h
      have := ih labels scores (writeMask labels arr g s) arr' h
      rwa [length_writeMask] at this

theorem broadcast_get? : ∀ (gs : List String) (labels : List String)
    (scores : List (String × ℝ)) (arr arr' : List ℝ),
    broadcast labels scores gs arr = some arr' →
    ∀ (i : Nat) (l : String) (a : ℝ), labels.get? i = some l → arr.get? i = some a →
      ((l ∈ gs → ∃ s, scores.lookup l = some s ∧ arr'.get? i = some s) ∧
       (l ∉ gs → arr'.get? i = some a)) := by
  intro gs
  induction gs with
  | nil =>
    intro labels scores arr arr' h i l a hl ha
    simp only [broadcast] at h
    cases h
    exact ⟨fun hmem => absurd hmem (List.not_mem_nil l), fun _ => ha⟩
  | cons g gs ih =>
    intro labels scores arr arr' h i l a hl ha
    simp only [broadcast] at h
    cases hs : scores.lookup g with
    | none => rw [hs] at h; simp at h
    | some s0 =>
      rw [hs] at h
      have hw : (writeMask labels arr g s0).get? i = some (if l == g then s0 else a) :=
        writeMask_get? labels arr g s0 i l a hl ha
      have IH := ih labels scores (writeMask labels arr g s0) arr' h i l
        (if l == g then s0 else a) hl hw
      constructor
      · intro hmem
        by_cases hmem' : l ∈ gs
        · exact IH.1 hmem'
        · have hlg : l = g := by
            rcases List.mem_cons.mp hmem with h' | h'
            · exact h'
            · exact absurd h' hmem'
          have hbeq : (l == g) = true := beq_iff_eq.mpr hlg
          refine ⟨s0, ?_, ?_⟩
          · rw [hlg, hs]
          · rw [IH.2 hmem', hbeq]; simp
      · intro hmem
        have hlg : l ≠ g := fun e => hmem (e ▸ List.mem_cons_self g gs)
        have hgs : l ∉ gs := fun e => hmem (List.mem_cons_of_mem g e)
        have hbeq : (l == g) = false := beq_eq_false_iff_ne.mpr hlg
        rw [IH.2 hgs, hbeq]; simp

theorem broadcast_none_of_lookup_none : ∀ (gs : List String) (labels : List String)
    (scores : List (String × ℝ)) (arr : List ℝ) (l : String),
    l ∈ gs → scores.lookup l = none → broadcast labels scores gs arr = none := by
  intro gs
  induction gs with
  | nil => intro labels scores arr l hmem _; simp at hmem
  | cons g gs ih =>
    intro labels scores arr l hmem hnone
    simp only [broadcast]
    by_cases hlg : l = g
    · rw [← hlg, hnone]
    · cases hs : scores.lookup g with
      | none => rfl
      | some s =>
        have hmem' : l ∈ gs := by
          rcases List.mem_cons.mp hmem with h' | h'
          · exact absurd h' hlg
          · exact h'
        exact ih labels scores (writeMask labels arr g s) l hmem' hnone

theorem ithLoop_ok_of_mem : ∀ (gs : List String) (step : String → Except Err (Option ℝ))
    (scores : List (String × ℝ)) (g : String),
    ithLoop step gs = Except.ok scores → g ∈ gs → ∃ r, step g = Except.ok r := by
  intro gs
  induction gs with
  | nil => intro step scores g _ hmem; simp at hmem
  | cons g0 gs ih =>
    intro step scores g h hmem
    simp only [ithLoop] at h
    cases hstep : step g0 with
    | error e => rw [hstep] at h; simp at h
    | ok r0 =>
      rw [hstep] at h
      rcases List.mem_cons.mp hmem with h' | h'
      · exact ⟨r0, h' ▸ hstep⟩
      · cases r0 with
        | none => exact ih step scores g h h'
        | some s0 =>
          cases hrest : ithLoop step gs with
          | error e => rw [hrest] at h; simp at h
          | ok rest => exact ih step rest g hrest h'

theorem ithLoop_lookup_some : ∀ (gs : List String) (step : String → Except Err (Option ℝ))
    (scores : List (String × ℝ)) (g : String) (s : ℝ),
    ithLoop step gs = Except.ok scores → g ∈ gs → step g = Except.ok (some s) →
    scores.lookup g = some s := by
  intro gs
  induction gs with
  | nil => intro step scores g s _ hmem; simp at hmem
  | cons g0 gs ih =>
    intro step scores g s h hmem hstep
    simp only [ithLoop] at h
    by_cases hg : g = g0
    · subst hg
      rw [hstep] at h
      cases hrest : ithLoop step gs with
      | error e => rw [hrest] at h; simp at h
      | ok rest =>
        rw [hrest] at h
        cases h
        simp [List.lookup]
    · have hmem' : g ∈ gs := by
        rcases List.mem_cons.mp hmem with h' | h'
        · exact absurd h' hg
        · exact h'
      cases hstep0 : step g0 with
      | error e => rw [hstep0] at h; simp at h
      | ok r0 =>
        rw [hstep0] at h
        cases r0 with
        | none => exact ih step scores g s h hmem' hstep
        | some s0 =>
          cases hrest : ithLoop step gs with
          | error e => rw [hrest] at h; simp at h
          | ok rest =>
            rw [hrest] at h
            cases h
            have hb : (g == g0) = false := beq_eq_false_iff_ne.mpr hg
            simp only [List.lookup, hb]
            exact ih step rest g s hrest hmem' hstep

theorem ithLoop_lookup_none : ∀ (gs : List String) (step : String → Except Err (Option ℝ))
    (scores : List (String × ℝ)) (g : String),
    ithLoop step gs = Except.ok scores → step g = Except.ok none →
    scores.lookup g = none := by
  intro gs
  induction gs with
  | nil =>
    intro step scores g h _
    simp only [ithLoop] at h
    cases h
    simp [List.lookup]
  | cons g0 gs ih =>
    intro step scores g h hstep
    simp only [ithLoop] at h
    cases hstep0 : step g0 with
    | error e => rw [hstep0] at h; simp at h
    | ok r0 =>
      rw [hstep0] at h
      cases r0 with
      | none => exact ih step scores g h hstep
      | some s0 =>
        cases hrest : ithLoop step gs with
        | error e => rw [hrest] at h; simp at h
        | ok rest =>
          rw [hrest] at h
          cases h
          have hg : g ≠ g0 := by
            intro e
            rw [e, hstep0] at hstep
            exact Option.noConfusion (Except.ok.inj hstep)
          have hb : (g == g0) = false := beq_eq_false_iff_ne.mpr hg
          simp only [List.lookup, hb]
          exact ih step rest g hrest hstep

theorem lookup_setCol_self : ∀ (l : List (String × ObsCol)) (k : String) (c : ObsCol),
    (setCol k c l).lookup k = some c := by
  intro l
  induction l with
  | nil => intro k c; simp [setCol, List.lookup]
  | cons p l ih =>
    intro k c
    by_cases hk : p.1 == k
    · simp [setCol, hk, List.lookup]
    · simp only [Bool.not_eq_true] at hk
      have hk' : (k == p.1) = false := by
        simp only [beq_eq_false_iff_ne, ne_eq, beq_iff_eq] at hk ⊢
        exact fun e => hk e.symm
      cases p with
      | mk k' c' =>
        simp only [setCol]
        simp only [beq_eq_false_iff_ne] at hk
        rw [if_neg (by simpa using hk)]
        simp only [List.lookup, hk']
        exact ih k c

theorem lookup_setCol_ne : ∀ (l : List (String × ObsCol)) (k k' : String) (c : ObsCol),
    k' ≠ k → (setCol k c l).lookup k' = l.lookup k' := by
  intro l
  induction l with
  | nil =>
    intro k k' c hne
    have hb : (k' == k) = false := beq_eq_false_iff_ne.mpr hne
    simp [setCol, List.lookup, hb]
  | cons p l ih =>
    intro k k' c hne
    cases p with
    | mk k0 c0 =>
      by_cases hk : k0 = k
      · have hb : (k' == k0) = false := beq_eq_false_iff_ne.mpr (hk ▸ hne)
        simp [setCol, hk, List.lookup, hb, beq_eq_false_iff_ne.mpr hne]
      · have hkb : (k0 == k) = false := beq_eq_false_iff_ne.mpr hk
        by_cases hb : k' = k0
        · subst hb
          simp [setCol, hkb, List.lookup]
        · have hb' : (k' == k0) = false := beq_eq_false_iff_ne.mpr hb
          simp [setCol, hkb, List.lookup, hb', ih k k' c hne]

theorem length_corrcoef (M : Mat) : (corrcoef M).length = M.length := by
  simp [corrcoef]

theorem row_length_corrcoef (M : Mat) : ∀ r ∈ corrcoef M, r.length = M.length := by
  intro r hr
  rcases List.mem_map.mp hr with ⟨x, hx1, hx2⟩
  rw [← hx2]
  simp

theorem nObs_subsetAnn (adata : AnnData) (labels : List String) (g : String)
    (h : labels.length = adata.X.length) :
    (subsetAnn adata labels g).nObs = labels.count g := by
  simp only [subsetAnn, AnnData.nObs]
  exact length_filterByLabel labels adata.X h g

theorem meanAbs_eq_spec (M : Mat) :
    meanAbs M = listMean (M.flatten.map (fun q => |q|)) := by
  have hf : ratAbs = fun q : ℚ => |q| := funext ratAbs_eq_abs
  unfold meanAbs listMean
  rw [hf, List.length_map]

theorem get?_replicate_real (n i : Nat) (h : i < n) :
    (List.replicate n (0 : ℝ)).get? i = some 0 := by
  induction n generalizing i with
  | zero => simp at h
  | succ n ih =>
    cases i with
    | zero => simp [List.replicate]
    | succ i =>
      simp only [List.replicate, List.get?]
      exact ih i (Nat.lt_of_succ_lt_succ h)

theorem mem_of_get? {α : Type} {l : List α} {i : Nat} {a : α}
    (h : l.get? i = some a) : a ∈ l := List.get?_mem h

/-! Claim theorems. -/

/-- C4: `cnv_score` returns the descriptive configuration error
(`raise ValueError(...)` in the source) exactly when the grouping column is
the default name "cnv_leiden" and that column is absent from `adata.obs`;
on that path the error is raised before any score computation or mutation
(the result carries no data container at all). -/
theorem cnv_score_config_error_iff (adata : AnnData) (groupby use_rep key_added : String)
    (inplace : Bool) :
    cnv_score adata groupby use_rep key_added inplace = Except.error Err.config ↔
      (groupby = "cnv_leiden" ∧ hasCol adata groupby = false) := by
  unfold cnv_score
  by_cases hg : ((!(hasCol adata groupby)) && (groupby == "cnv_leiden")) = true
  · rw [if_pos hg]
    simp only [Bool.and_eq_true, Bool.not_eq_true', beq_iff_eq] at hg
    obtain ⟨h1, h2⟩ := hg
    subst h2
    simp [h1]
  · rw [if_neg hg]
    simp only [Bool.and_eq_true, Bool.not_eq_true', beq_iff_eq] at hg
    constructor
    · intro h
      exfalso
      cases hcat : getCat adata groupby with
      | none => rw [hcat] at h; exact Err.noConfusion (Except.error.inj h)
      | some labels =>
        rw [hcat] at h
        cases hm : adata.obsm.lookup ("X_" ++ use_rep) with
        | none => rw [hm] at h; exact Err.noConfusion (Except.error.inj h)
        | some M =>
          rw [hm] at h
          cases inplace <;> simp at h
    · intro h
      exact absurd ⟨h.2, h.1⟩ hg

/-- C4 witness: `exC1` has no "cnv_leiden" column, so calling `cnv_score`
with the default grouping column name yields the configuration error. -/
theorem cnv_score_config_error_iff_witness :
    cnv_score exC1 "cnv_leiden" "cnv" "cnv_score" true = Except.error Err.config :=
  (cnv_score_config_error_iff exC1 "cnv_leiden" "cnv" "cnv_score" true).mpr ⟨rfl, rfl⟩

/-- C1: `cnv_score` scores every distinct value of the grouping column with
the mean of the absolute values of all entries of the named per-cell CNV
representation matrix restricted to that group's rows; in particular, on
the 4-cell dataset with groups [A,A,B,B] and CNV rows
[[0.1,-0.2],[0.3,-0.1],[1,1],[1,1]], group A scores 7/40 = 0.175, group B
scores 1, and the per-cell `inplace` output column is
[0.175, 0.175, 1, 1]. -/
theorem cnv_score_groupwise_mean :
    (∀ (adata : AnnData) (groupby use_rep key_added : String) (labels : List String)
       (M : Mat) (c : String),
       getCat adata groupby = some labels →
       adata.obsm.lookup ("X_" ++ use_rep) = some M →
       c ∈ labels →
       ∃ scores, cnv_score adata groupby use_rep key_added false =
           Except.ok (some scores, adata) ∧
         scores.lookup c =
           some (listMean ((filterByLabel labels c M).flatten.map (fun q => |q|)))) ∧
    cnv_score exC1 "grp" "cnv" "cnv_score" false =
      Except.ok (some [("A", 7/40), ("B", 1)], exC1) ∧
    (∀ (m : Option (List (String × ℚ))) (a' : AnnData),
       cnv_score exC1 "grp" "cnv" "cnv_score" true = Except.ok (m, a') →
       a'.obs.lookup "cnv_score" =
         some (ObsCol.num [(7/40 : ℝ), (7/40 : ℝ), (1 : ℝ), (1 : ℝ)])) := by
  have hA : meanAbs [[1/10, -1/5], [3/10, -1/10]] = 7/40 := by
    rw [meanAbs_eq_spec]
    norm_num [listMean]
    rw [abs_of_nonneg (by norm_num : (0:ℚ) ≤ 1/10), abs_of_nonneg (by norm_num : (0:ℚ) ≤ 1/5),
        abs_of_nonneg (by norm_num : (0:ℚ) ≤ 3/10)]
    norm_num
  have hB : meanAbs [[(1 : ℚ), 1], [1, 1]] = 1 := by
    rw [meanAbs_eq_spec]
    norm_num [listMean]
  refine ⟨?_, ?_, ?_⟩
  · intro adata groupby use_rep key_added labels M c hcat hm hc
    have hcol : hasCol adata groupby = true := hasCol_true_of_getCat hcat
    have hguard : ((!(hasCol adata groupby)) && (groupby == "cnv_leiden")) = false := by
      rw [hcol]
      rfl
    refine ⟨(uniqueFirst labels).map (fun c => (c, meanAbs (filterByLabel labels c M))), ?_, ?_⟩
    · unfold cnv_score
      rw [if_neg (by rw [hguard]; exact Bool.false_ne_true), hcat, hm]
      rfl
    · rw [lookup_map_pair (fun c => meanAbs (filterByLabel labels c M)) _ c
        (mem_uniqueFirst.mpr hc)]
      rw [meanAbs_eq_spec]
  · have h0 : cnv_score exC1 "grp" "cnv" "cnv_score" false =
        Except.ok (some [("A", meanAbs [[1/10, -1/5], [3/10, -1/10]]),
                         ("B", meanAbs [[(1 : ℚ), 1], [1, 1]])], exC1) := rfl
    rw [h0, hA, hB]
  · intro m a' h
    have h1 : cnv_score exC1 "grp" "cnv" "cnv_score" true =
        Except.ok (none, setObsCol exC1 "cnv_score" (ObsCol.num
          [((meanAbs [[1/10, -1/5], [3/10, -1/10]] : ℚ) : ℝ),
           ((meanAbs [[1/10, -1/5], [3/10, -1/10]] : ℚ) : ℝ),
           ((meanAbs [[(1 : ℚ), 1], [1, 1]] : ℚ) : ℝ),
           ((meanAbs [[(1 : ℚ), 1], [1, 1]] : ℚ) : ℝ)])) := rfl
    rw [h1] at h
    have h2 := Except.ok.inj h
    have ha' : a' = setObsCol exC1 "cnv_score" (ObsCol.num
        [((meanAbs [[1/10, -1/5], [3/10, -1/10]] : ℚ) : ℝ),
         ((meanAbs [[1/10, -1/5], [3/10, -1/10]] : ℚ) : ℝ),
         ((meanAbs [[(1 : ℚ), 1], [1, 1]] : ℚ) : ℝ),
         ((meanAbs [[(1 : ℚ), 1], [1, 1]] : ℚ) : ℝ)]) := (Prod.mk.injEq _ _ _ _ ▸ h2).2.symm
    rw [ha', setObsCol, lookup_setCol_self]
    rw [hA, hB]
    norm_num

/-- C1 witness: the group-mean property instantiated on the concrete 4-cell
dataset `exC1` at group "A". -/
theorem cnv_score_groupwise_mean_witness :
    ∃ scores, cnv_score exC1 "grp" "cnv" "cnv_score" false =
        Except.ok (some scores, exC1) ∧
      scores.lookup "A" =
        some (listMean ((filterByLabel ["A", "A", "B", "B"] "A"
          [[1/10, -1/5], [3/10, -1/10], [1, 1], [1, 1]]).flatten.map (fun q => |q|))) :=
  cnv_score_groupwise_mean.1 exC1 "grp" "cnv" "cnv_score" ["A", "A", "B", "B"]
    [[1/10, -1/5], [3/10, -1/10], [1, 1], [1, 1]] "A" rfl rfl (by simp)

/-- C7: with `inplace=False` each of the three functions returns the
group→score mapping and leaves the dataset unchanged, so a second call with
`inplace=False` on the returned dataset produces the identical result. -/
theorem inplace_false_pure :
    (∀ (adata : AnnData) (groupby use_rep key_added : String)
       (m : Option (List (String × ℚ))) (a' : AnnData),
       cnv_score adata groupby use_rep key_added false = Except.ok (m, a') →
       a' = adata ∧ cnv_score a' groupby use_rep key_added false =
         cnv_score adata groupby use_rep key_added false) ∧
    (∀ (adata : AnnData) (groupby : String) (use_raw : Option Bool) (layer : Option String)
       (key_added : String) (m : Option (List (String × ℝ))) (a' : AnnData),
       ithgex adata groupby use_raw layer false key_added = Except.ok (m, a') →
       a' = adata ∧ ithgex a' groupby use_raw layer false key_added =
         ithgex adata groupby use_raw layer false key_added) ∧
    (∀ (adata : AnnData) (groupby use_rep key_added : String)
       (m : Option (List (String × ℝ))) (a' : AnnData),
       ithcna adata groupby use_rep false key_added = Except.ok (m, a') →
       a' = adata ∧ ithcna a' groupby use_rep false key_added =
         ithcna adata groupby use_rep false key_added) := by
  refine ⟨?_, ?_, ?_⟩
  · intro adata groupby use_rep key_added m a' h
    unfold cnv_score at h
    by_cases hg : ((!(hasCol adata groupby)) && (groupby == "cnv_leiden")) = true
    · rw [if_pos hg] at h; exact absurd h (by simp)
    · rw [if_neg hg] at h
      cases hcat : getCat adata groupby with
      | none => rw [hcat] at h; exact absurd h (by simp)
      | some labels =>
        rw [hcat] at h
        cases hm : adata.obsm.lookup ("X_" ++ use_rep) with
        | none => rw [hm] at h; exact absurd h (by simp)
        | some M =>
          rw [hm] at h
          simp only [if_neg (by simp : ¬(false = true))] at h
          have h2 := Except.ok.inj h
          have ha' : a' = adata := ((Prod.mk.injEq _ _ _ _) ▸ h2).2.symm
          exact ⟨ha', by rw [ha']⟩
  · intro adata groupby use_raw layer key_added m a' h
    unfold ithgex at h
    cases hcat : getCat adata groupby with
    | none => rw [hcat] at h; exact absurd h (by simp)
    | some labels =>
      rw [hcat] at h
      cases hmap : ithgexMapping adata groupby use_raw layer with
      | error e => rw [hmap] at h; exact absurd h (by simp)
      | ok scores =>
        rw [hmap] at h
        simp only [if_neg (by simp : ¬(false = true))] at h
        have h2 := Except.ok.inj h
        have ha' : a' = adata := ((Prod.mk.injEq _ _ _ _) ▸ h2).2.symm
        exact ⟨ha', by rw [ha']⟩
  · intro adata groupby use_rep key_added m a' h
    unfold ithcna at h
    cases hcat : getCat adata groupby with
    | none => rw [hcat] at h; exact absurd h (by simp)
    | some labels =>
      rw [hcat] at h
      cases hmap : ithcnaMapping adata groupby use_rep with
      | error e => rw [hmap] at h; exact absurd h (by simp)
      | ok scores =>
        rw [hmap] at h
        simp only [if_neg (by simp : ¬(false = true))] at h
        have h2 := Except.ok.inj h
        have ha' : a' = adata := ((Prod.mk.injEq _ _ _ _) ▸ h2).2.symm
        exact ⟨ha', by rw [ha']⟩

/-- C7 witness: the purity/idempotence property instantiated on concrete
data for all three functions (`exC1` for `cnv_score`, `exPair` for the
ith* functions), discharging the success hypotheses by computation. -/
theorem inplace_false_pure_witness :
    (exC1 = exC1 ∧ cnv_score exC1 "grp" "cnv" "cnv_score" false =
      cnv_score exC1 "grp" "cnv" "cnv_score" false) ∧
    (exPair = exPair ∧ ithgex exPair "grp" (some false) none false "ithgex" =
      ithgex exPair "grp" (some false) none false "ithgex") ∧
    (exPair = exPair ∧ ithcna exPair "grp" "X_cnv" false "ithgex" =
      ithcna exPair "grp" "X_cnv" false "ithgex") :=
  ⟨inplace_false_pure.1 exC1 "grp" "cnv" "cnv_score"
      (some [("A", meanAbs [[1/10, -1/5], [3/10, -1/10]]),
             ("B", meanAbs [[(1 : ℚ), 1], [1, 1]])]) exC1 rfl,
   inplace_false_pure.2.1 exPair "grp" (some false) none "ithgex"
      (some [("A", sPairGex)]) exPair rfl,
   inplace_false_pure.2.2 exPair "grp" "X_cnv" "ithgex"
      (some [("A", sPairCna)]) exPair rfl⟩

/-- step_ok_none_of_singleton_gex: if the grouping column is aligned with
the primary matrix and group `l` has at most one cell, then a non-error
outcome of the `ithgex` loop body for `l` must be the skip outcome. -/
theorem step_ok_none_of_singleton_gex (adata : AnnData) (labels : List String)
    (use_raw : Option Bool) (layer : Option String) (l : String) (r : Option ℝ)
    (hlen : labels.length = adata.X.length) (hcount : labels.count l ≤ 1)
    (hr : ithgexStep adata labels use_raw layer l = Except.ok r) : r = none := by
  cases r with
  | none => rfl
  | some s =>
    exfalso
    simp only [ithgexStep] at hr
    cases hchoose : chooseMtxRep (subsetAnn adata labels l) use_raw layer with
    | none => rw [hchoose] at hr; simp at hr
    | some X =>
      simp only [hchoose] at hr
      by_cases hlen1 : X.length ≤ 1
      · rw [if_pos hlen1] at hr
        simp at hr
      · rw [if_neg hlen1] at hr
        by_cases hcond : (((corrcoef X).length == (subsetAnn adata labels l).nObs) &&
            ((corrcoef X).all (fun r => r.length == (subsetAnn adata labels l).nObs))) = true
        · simp only [Bool.and_eq_true] at hcond
          have h2 : (corrcoef X).length = (subsetAnn adata labels l).nObs :=
            beq_iff_eq.mp hcond.1
          rw [length_corrcoef, nObs_subsetAnn adata labels l hlen] at h2
          omega
        · rw [Bool.not_eq_true] at hcond
          rw [hcond] at hr
          simp at hr

/-- step_ok_none_of_singleton_cna: the `ithcna` analogue of
`step_ok_none_of_singleton_gex`. -/
theorem step_ok_none_of_singleton_cna (adata : AnnData) (labels : List String)
    (use_rep : String) (l : String) (r : Option ℝ)
    (hlen : labels.length = adata.X.length) (hcount : labels.count l ≤ 1)
    (hr : ithcnaStep adata labels use_rep l = Except.ok r) : r = none := by
  cases r with
  | none => rfl
  | some s =>
    exfalso
    simp only [ithcnaStep] at hr
    cases hchoose : (subsetAnn adata labels l).obsm.lookup use_rep with
    | none => rw [hchoose] at hr; simp at hr
    | some X =>
      simp only [hchoose] at hr
      by_cases hlen1 : X.length ≤ 1
      · rw [if_pos hlen1] at hr
        simp at hr
      · rw [if_neg hlen1] at hr
        by_cases hcond : (((corrcoef X).length == (subsetAnn adata labels l).nObs) &&
            ((corrcoef X).all (fun r => r.length == (subsetAnn adata labels l).nObs))) = true
        · simp only [Bool.and_eq_true] at hcond
          have h2 : (corrcoef X).length = (subsetAnn adata labels l).nObs :=
            beq_iff_eq.mp hcond.1
          rw [length_corrcoef, nObs_subsetAnn adata labels l hlen] at h2
          omega
        · rw [Bool.not_eq_true] at hcond
          rw [hcond] at hr
          simp at hr

/-- stepgex_ok_some: when the chosen matrix of a group has at least two
rows and exactly as many rows as the group has cells, the `ithgex` loop
body passes the shape assertion and yields the IQR score. -/
theorem stepgex_ok_some (adata : AnnData) (labels : List String) (use_raw : Option Bool)
    (layer : Option String) (g : String) (Xg : Mat)
    (hchoose : chooseMtxRep (subsetAnn adata labels g) use_raw layer = some Xg)
    (h2 : 2 ≤ Xg.length) (hsh : Xg.length = (subsetAnn adata labels g).nObs) :
    ithgexStep adata labels use_raw layer g = Except.ok (some (iqrOfCorr Xg)) := by
  simp only [ithgexStep, hchoose]
  rw [if_neg (by omega)]
  have hc1 : ((corrcoef Xg).length == (subsetAnn adata labels g).nObs) = true :=
    beq_iff_eq.mpr (by rw [length_corrcoef, hsh])
  have hc2 : ((corrcoef Xg).all (fun r => r.length == (subsetAnn adata labels g).nObs)) = true := by
    rw [List.all_eq_true]
    intro r hr
    exact beq_iff_eq.mpr (by rw [row_length_corrcoef Xg r hr, hsh])
  rw [hc1, hc2]
  rfl

/-- stepcna_ok_some: the `ithcna` analogue of `stepgex_ok_some`. -/
theorem stepcna_ok_some (adata : AnnData) (labels : List String) (use_rep : String)
    (g : String) (Xg : Mat)
    (hchoose : (subsetAnn adata labels g).obsm.lookup use_rep = some Xg)
    (h2 : 2 ≤ Xg.length) (hsh : Xg.length = (subsetAnn adata labels g).nObs) :
    ithcnaStep adata labels use_rep g = Except.ok (some (iqrOfCorr Xg)) := by
  simp only [ithcnaStep, hchoose]
  rw [if_neg (by omega)]
  have hc1 : ((corrcoef Xg).length == (subsetAnn adata labels g).nObs) = true :=
    beq_iff_eq.mpr (by rw [length_corrcoef, hsh])
  have hc2 : ((corrcoef Xg).all (fun r => r.length == (subsetAnn adata labels g).nObs)) = true := by
    rw [List.all_eq_true]
    intro r hr
    exact beq_iff_eq.mpr (by rw [row_length_corrcoef Xg r hr, hsh])
  rw [hc1, hc2]
  rfl

/-- C8: the correlation matrix computed for a group is always exactly
(group size × group size) when the chosen matrix is well formed (one row
per cell of the group), so the internal shape assertion of `ithgex` and
`ithcna` never fails under that precondition: the loop body never
produces the fatal AssertionError outcome (which, when it would occur, is
modelled as the non-recoverable `Err.assertFail` rather than a normal
result). -/
theorem corr_shape_assert_safe :
    (∀ M : Mat, (corrcoef M).length = M.length ∧ ∀ r ∈ corrcoef M, r.length = M.length) ∧
    (∀ (adata : AnnData) (labels : List String) (use_raw : Option Bool) (layer : Option String)
       (g : String) (Xg : Mat),
       chooseMtxRep (subsetAnn adata labels g) use_raw layer = some Xg →
       2 ≤ Xg.length →
       Xg.length = (subsetAnn adata labels g).nObs →
       ithgexStep adata labels use_raw layer g ≠ Except.error Err.assertFail) ∧
    (∀ (adata : AnnData) (labels : List String) (use_rep : String) (g : String) (Xg : Mat),
       (subsetAnn adata labels g).obsm.lookup use_rep = some Xg →
       2 ≤ Xg.length →
       Xg.length = (subsetAnn adata labels g).nObs →
       ithcnaStep adata labels use_rep g ≠ Except.error Err.assertFail) := by
  refine ⟨fun M => ⟨length_corrcoef M, row_length_corrcoef M⟩, ?_, ?_⟩
  · intro adata labels use_raw layer g Xg hchoose h2 hsh hcontra
    rw [stepgex_ok_some adata labels use_raw layer g Xg hchoose h2 hsh] at hcontra
    exact Except.noConfusion hcontra
  · intro adata labels use_rep g Xg hchoose h2 hsh hcontra
    rw [stepcna_ok_some adata labels use_rep g Xg hchoose h2 hsh] at hcontra
    exact Except.noConfusion hcontra

/-- C8 witness: on the 2-cell group of `exPair` the correlation matrix is
2×2 and neither loop body hits the assertion. -/
theorem corr_shape_assert_safe_witness :
    (corrcoef [[1, 2], [3, 5]]).length = 2 ∧
    ithgexStep exPair ["A", "A"] (some false) none "A" ≠ Except.error Err.assertFail ∧
    ithcnaStep exPair ["A", "A"] "X_cnv" "A" ≠ Except.error Err.assertFail :=
  ⟨(corr_shape_assert_safe.1 [[1, 2], [3, 5]]).1,
   corr_shape_assert_safe.2.1 exPair ["A", "A"] (some false) none "A" [[1, 2], [3, 5]]
     rfl (by decide) rfl,
   corr_shape_assert_safe.2.2 exPair ["A", "A"] "X_cnv" "A" [[1, 0], [0, 1]]
     rfl (by decide) rfl⟩

/-- C2: for every group with at least two cells (and a well-formed matrix
for that group), the `ithgex`/`ithcna` score recorded in the mapping is
the 75th minus the 25th percentile over all entries of the full pairwise
Pearson correlation matrix of the group's cells — the flattened cell×cell
matrix, diagonal and both triangles included. -/
theorem ith_scores_iqr_of_corr :
    (∀ (adata : AnnData) (groupby : String) (use_raw : Option Bool) (layer : Option String)
       (labels : List String) (scores : List (String × ℝ)) (g : String) (Xg : Mat),
       getCat adata groupby = some labels →
       ithgexMapping adata groupby use_raw layer = Except.ok scores →
       g ∈ labels →
       chooseMtxRep (subsetAnn adata labels g) use_raw layer = some Xg →
       2 ≤ Xg.length →
       Xg.length = (subsetAnn adata labels g).nObs →
       scores.lookup g = some (iqrOfCorr Xg)) ∧
    (∀ (adata : AnnData) (groupby use_rep : String)
       (labels : List String) (scores : List (String × ℝ)) (g : String) (Xg : Mat),
       getCat adata groupby = some labels →
       ithcnaMapping adata groupby use_rep = Except.ok scores →
       g ∈ labels →
       (subsetAnn adata labels g).obsm.lookup use_rep = some Xg →
       2 ≤ Xg.length →
       Xg.length = (subsetAnn adata labels g).nObs →
       scores.lookup g = some (iqrOfCorr Xg)) := by
  constructor
  · intro adata groupby use_raw layer labels scores g Xg hcat hmap hg hchoose h2 hsh
    unfold ithgexMapping at hmap
    rw [hcat] at hmap
    exact ithLoop_lookup_some (uniqueFirst labels) _ scores g (iqrOfCorr Xg) hmap
      (mem_uniqueFirst.mpr hg)
      (stepgex_ok_some adata labels use_raw layer g Xg hchoose h2 hsh)
  · intro adata groupby use_rep labels scores g Xg hcat hmap hg hchoose h2 hsh
    unfold ithcnaMapping at hmap
    rw [hcat] at hmap
    exact ithLoop_lookup_some (uniqueFirst labels) _ scores g (iqrOfCorr Xg) hmap
      (mem_uniqueFirst.mpr hg)
      (stepcna_ok_some adata labels use_rep g Xg hchoose h2 hsh)

/-- C2 witness: on `exPair` the recorded score of group "A" equals the IQR
of the entries of the 2×2 correlation matrix, for both functions. -/
theorem ith_scores_iqr_of_corr_witness :
    ([("A", sPairGex)] : List (String × ℝ)).lookup "A" = some (iqrOfCorr [[1, 2], [3, 5]]) ∧
    ([("A", sPairCna)] : List (String × ℝ)).lookup "A" = some (iqrOfCorr [[1, 0], [0, 1]]) :=
  ⟨ith_scores_iqr_of_corr.1 exPair "grp" (some false) none ["A", "A"] [("A", sPairGex)]
     "A" [[1, 2], [3, 5]] rfl rfl (List.mem_cons_self _ _) rfl (by decide) rfl,
   ith_scores_iqr_of_corr.2 exPair "grp" "X_cnv" ["A", "A"] [("A", sPairCna)]
     "A" [[1, 0], [0, 1]] rfl rfl (List.mem_cons_self _ _) rfl (by decide) rfl⟩

/-- C6: `ithcna` is exactly the `ithgex` algorithm with the matrix source
fixed to the named CNV-embedding representation of `obsm`: both functions
are instances of the common source-abstracted algorithm `ithWith` — same
singleton-group skip, same shape assertion, same IQR-of-correlations
score, same mutate-or-return contract. -/
theorem ithcna_refines_ithgex :
    (∀ (adata : AnnData) (groupby use_rep : String) (inplace : Bool) (key_added : String),
       ithcna adata groupby use_rep inplace key_added =
         ithWith (fun t => t.obsm.lookup use_rep) adata groupby inplace key_added) ∧
    (∀ (adata : AnnData) (groupby : String) (use_raw : Option Bool) (layer : Option String)
       (inplace : Bool) (key_added : String),
       ithgex adata groupby use_raw layer inplace key_added =
         ithWith (fun t => chooseMtxRep t use_raw layer) adata groupby inplace key_added) :=
  ⟨fun _ _ _ _ _ => rfl, fun _ _ _ _ _ _ => rfl⟩

/-- C9: whenever some group has at most one cell (and the score-mapping
phase itself succeeds), `ithgex`/`ithcna` with `inplace=True` fail with
the lookup error raised while broadcasting scores (`scores[group]` for the
skipped group), before the per-cell score column is written — the
returned outcome carries no updated container, so the annotation table is
untouched. -/
theorem ith_inplace_singleton_keyerror :
    (∀ (adata : AnnData) (groupby : String) (use_raw : Option Bool) (layer : Option String)
       (key_added : String) (labels : List String) (l : String) (scores : List (String × ℝ)),
       getCat adata groupby = some labels →
       labels.length = adata.X.length →
       l ∈ labels →
       labels.count l ≤ 1 →
       ithgexMapping adata groupby use_raw layer = Except.ok scores →
       ithgex adata groupby use_raw layer true key_added = Except.error Err.keyError) ∧
    (∀ (adata : AnnData) (groupby use_rep key_added : String)
       (labels : List String) (l : String) (scores : List (String × ℝ)),
       getCat adata groupby = some labels →
       labels.length = adata.X.length →
       l ∈ labels →
       labels.count l ≤ 1 →
       ithcnaMapping adata groupby use_rep = Except.ok scores →
       ithcna adata groupby use_rep true key_added = Except.error Err.keyError) := by
  constructor
  · intro adata groupby use_raw layer key_added labels l scores hcat hlen hmem hcount hmap
    have hmap' : ithLoop (ithgexStep adata labels use_raw layer) (uniqueFirst labels) =
        Except.ok scores := by
      unfold ithgexMapping at hmap
      rw [hcat] at hmap
      exact hmap
    obtain ⟨r, hr⟩ := ithLoop_ok_of_mem (uniqueFirst labels) _ scores l hmap'
      (mem_uniqueFirst.mpr hmem)
    have hrnone : r = none :=
      step_ok_none_of_singleton_gex adata labels use_raw layer l r hlen hcount hr
    have hlook : scores.lookup l = none :=
      ithLoop_lookup_none (uniqueFirst labels) _ scores l hmap' (hrnone ▸ hr)
    have hbc : broadcast labels scores (uniqueFirst labels)
        (List.replicate adata.nObs 0) = none :=
      broadcast_none_of_lookup_none (uniqueFirst labels) labels scores _ l
        (mem_uniqueFirst.mpr hmem) hlook
    unfold ithgex
    simp only [hcat, hmap, hbc]
    rfl
  · intro adata groupby use_rep key_added labels l scores hcat hlen hmem hcount hmap
    have hmap' : ithLoop (ithcnaStep adata labels use_rep) (uniqueFirst labels) =
        Except.ok scores := by
      unfold ithcnaMapping at hmap
      rw [hcat] at hmap
      exact hmap
    obtain ⟨r, hr⟩ := ithLoop_ok_of_mem (uniqueFirst labels) _ scores l hmap'
      (mem_uniqueFirst.mpr hmem)
    have hrnone : r = none :=
      step_ok_none_of_singleton_cna adata labels use_rep l r hlen hcount hr
    have hlook : scores.lookup l = none :=
      ithLoop_lookup_none (uniqueFirst labels) _ scores l hmap' (hrnone ▸ hr)
    have hbc : broadcast labels scores (uniqueFirst labels)
        (List.replicate adata.nObs 0) = none :=
      broadcast_none_of_lookup_none (uniqueFirst labels) labels scores _ l
        (mem_uniqueFirst.mpr hmem) hlook
    unfold ithcna
    simp only [hcat, hmap, hbc]
    rfl

/-- C9 witness: on `exSing` (groups [A,A,B], B a singleton) both inplace
calls fail with the lookup error. -/
theorem ith_inplace_singleton_keyerror_witness :
    ithgex exSing "grp" (some false) none true "ithgex" = Except.error Err.keyError ∧
    ithcna exSing "grp" "X_cnv" true "ithcna_col" = Except.error Err.keyError :=
  ⟨ith_inplace_singleton_keyerror.1 exSing "grp" (some false) none "ithgex"
     ["A", "A", "B"] "B" [("A", sPairGex)] rfl rfl (by decide) (by decide) rfl,
   ith_inplace_singleton_keyerror.2 exSing "grp" "X_cnv" "ithcna_col"
     ["A", "A", "B"] "B" [("A", sPairCna)] rfl rfl (by decide) (by decide) rfl⟩

/-- C3 counterexample: the claim asserts that with `inplace=True` a
singleton group is skipped "without error", its output positions simply
left unwritten while all other groups still receive their scores. On the
concrete dataset `exSing` (groups [A,A,B], B a singleton) the
`inplace=True` call does not complete at all: it fails with the lookup
error raised by `scores[group]` for the skipped group, so no column is
written for any group. -/
theorem singleton_skip_counterexample :
    ithcna exSing "grp" "X_cnv" true "ithgex" = Except.error Err.keyError := rfl

/-- C3 amended: groups with at most one cell are skipped by the scoring
loop without error — no score is computed for them and they are absent
from the mapping returned by `inplace=False` — but with `inplace=True`
the call does not leave their positions unwritten while writing the
others: it fails with a lookup error while broadcasting and writes no
per-cell column at all (the dataset is returned unchanged only in the
`inplace=False` mode). -/
theorem singleton_skip_amended :
    (∀ (adata : AnnData) (groupby : String) (use_raw : Option Bool) (layer : Option String)
       (key_added : String) (labels : List String) (l : String) (scores : List (String × ℝ)),
       getCat adata groupby = some labels →
       labels.length = adata.X.length →
       l ∈ labels →
       labels.count l ≤ 1 →
       ithgexMapping adata groupby use_raw layer = Except.ok scores →
       scores.lookup l = none ∧
       ithgex adata groupby use_raw layer false key_added = Except.ok (some scores, adata) ∧
       ithgex adata groupby use_raw layer true key_added = Except.error Err.keyError) ∧
    (∀ (adata : AnnData) (groupby use_rep key_added : String)
       (labels : List String) (l : String) (scores : List (String × ℝ)),
       getCat adata groupby = some labels →
       labels.length = adata.X.length →
       l ∈ labels →
       labels.count l ≤ 1 →
       ithcnaMapping adata groupby use_rep = Except.ok scores →
       scores.lookup l = none ∧
       ithcna adata groupby use_rep false key_added = Except.ok (some scores, adata) ∧
       ithcna adata groupby use_rep true key_added = Except.error Err.keyError) := by
  constructor
  · intro adata groupby use_raw layer key_added labels l scores hcat hlen hmem hcount hmap
    have hmap' : ithLoop (ithgexStep adata labels use_raw layer) (uniqueFirst labels) =
        Except.ok scores := by
      unfold ithgexMapping at hmap
      rw [hcat] at hmap
      exact hmap
    obtain ⟨r, hr⟩ := ithLoop_ok_of_mem (uniqueFirst labels) _ scores l hmap'
      (mem_uniqueFirst.mpr hmem)
    have hrnone : r = none :=
      step_ok_none_of_singleton_gex adata labels use_raw layer l r hlen hcount hr
    have hlook : scores.lookup l = none :=
      ithLoop_lookup_none (uniqueFirst labels) _ scores l hmap' (hrnone ▸ hr)
    have hbc : broadcast labels scores (uniqueFirst labels)
        (List.replicate adata.nObs 0) = none :=
      broadcast_none_of_lookup_none (uniqueFirst labels) labels scores _ l
        (mem_uniqueFirst.mpr hmem) hlook
    refine ⟨hlook, ?_, ?_⟩
    · unfold ithgex
      simp only [hcat, hmap]
      rfl
    · unfold ithgex
      simp only [hcat, hmap, hbc]
      rfl
  · intro adata groupby use_rep key_added labels l scores hcat hlen hmem hcount hmap
    have hmap' : ithLoop (ithcnaStep adata labels use_rep) (uniqueFirst labels) =
        Except.ok scores := by
      unfold ithcnaMapping at hmap
      rw [hcat] at hmap
      exact hmap
    obtain ⟨r, hr⟩ := ithLoop_ok_of_mem (uniqueFirst labels) _ scores l hmap'
      (mem_uniqueFirst.mpr hmem)
    have hrnone : r = none :=
      step_ok_none_of_singleton_cna adata labels use_rep l r hlen hcount hr
    have hlook : scores.lookup l = none :=
      ithLoop_lookup_none (uniqueFirst labels) _ scores l hmap' (hrnone ▸ hr)
    have hbc : broadcast labels scores (uniqueFirst labels)
        (List.replicate adata.nObs 0) = none :=
      broadcast_none_of_lookup_none (uniqueFirst labels) labels scores _ l
        (mem_uniqueFirst.mpr hmem) hlook
    refine ⟨hlook, ?_, ?_⟩
    · unfold ithcna
      simp only [hcat, hmap]
      rfl
    · unfold ithcna
      simp only [hcat, hmap, hbc]
      rfl

/-- C3 witness: the amended behaviour instantiated on `exSing` for
`ithgex`: group B is absent from the mapping, `inplace=False` succeeds
returning the dataset unchanged, `inplace=True` fails with the lookup
error. -/
theorem singleton_skip_amended_witness :
    ([("A", sPairGex)] : List (String × ℝ)).lookup "B" = none ∧
    ithgex exSing "grp" (some false) none false "k3" =
      Except.ok (some [("A", sPairGex)], exSing) ∧
    ithgex exSing "grp" (some false) none true "k3" = Except.error Err.keyError :=
  singleton_skip_amended.1 exSing "grp" (some false) none "k3"
    ["A", "A", "B"] "B" [("A", sPairGex)] rfl rfl (by decide) (by decide) rfl

/-- C5: after a successful `inplace=True` run of any of the three
functions (on data whose grouping column is aligned with the cell count),
the added per-cell column has exactly one value per cell of the dataset
and any two cells carrying the same group label hold exactly equal score
values. -/
theorem same_group_same_score :
    (∀ (adata : AnnData) (groupby use_rep key_added : String) (labels : List String)
       (m : Option (List (String × ℚ))) (a' : AnnData),
       getCat adata groupby = some labels →
       labels.length = adata.X.length →
       cnv_score adata groupby use_rep key_added true = Except.ok (m, a') →
       ∃ arr : List ℝ, a'.obs.lookup key_added = some (ObsCol.num arr) ∧
         arr.length = adata.nObs ∧
         ∀ (i j : Nat) (l : String), labels.get? i = some l → labels.get? j = some l →
           arr.get? i = arr.get? j) ∧
    (∀ (adata : AnnData) (groupby : String) (use_raw : Option Bool) (layer : Option String)
       (key_added : String) (labels : List String)
       (m : Option (List (String × ℝ))) (a' : AnnData),
       getCat adata groupby = some labels →
       labels.length = adata.X.length →
       ithgex adata groupby use_raw layer true key_added = Except.ok (m, a') →
       ∃ arr : List ℝ, a'.obs.lookup key_added = some (ObsCol.num arr) ∧
         arr.length = adata.nObs ∧
         ∀ (i j : Nat) (l : String), labels.get? i = some l → labels.get? j = some l →
           arr.get? i = arr.get? j) ∧
    (∀ (adata : AnnData) (groupby use_rep key_added : String) (labels : List String)
       (m : Option (List (String × ℝ))) (a' : AnnData),
       getCat adata groupby = some labels →
       labels.length = adata.X.length →
       ithcna adata groupby use_rep true key_added = Except.ok (m, a') →
       ∃ arr : List ℝ, a'.obs.lookup key_added = some (ObsCol.num arr) ∧
         arr.length = adata.nObs ∧
         ∀ (i j : Nat) (l : String), labels.get? i = some l → labels.get? j = some l →
           arr.get? i = arr.get? j) := by
  have hbroad : ∀ (adata : AnnData) (labels : List String) (scores : List (String × ℝ))
      (arr : List ℝ),
      labels.length = adata.X.length →
      broadcast labels scores (uniqueFirst labels) (List.replicate adata.nObs 0) = some arr →
      arr.length = adata.nObs ∧
      ∀ (i j : Nat) (l : String), labels.get? i = some l → labels.get? j = some l →
        arr.get? i = arr.get? j := by
    intro adata labels scores arr hlen hbc
    have hlenarr : arr.length = adata.nObs := by
      rw [broadcast_length (uniqueFirst labels) labels scores _ arr hbc]
      exact List.length_replicate _ _
    refine ⟨hlenarr, ?_⟩
    intro i j l hi hj
    have hiL : i < labels.length := by
      rcases List.get?_eq_some.mp hi with ⟨h, _⟩
      exact h
    have hjL : j < labels.length := by
      rcases List.get?_eq_some.mp hj with ⟨h, _⟩
      exact h
    have hrepi : (List.replicate adata.nObs (0 : ℝ)).get? i = some 0 :=
      get?_replicate_real adata.nObs i (by unfold AnnData.nObs; omega)
    have hrepj : (List.replicate adata.nObs (0 : ℝ)).get? j = some 0 :=
      get?_replicate_real adata.nObs j (by unfold AnnData.nObs; omega)
    have hmeml : l ∈ uniqueFirst labels := mem_uniqueFirst.mpr (mem_of_get? hi)
    obtain ⟨si, hsi, hvi⟩ := (broadcast_get? (uniqueFirst labels) labels scores _ arr hbc
      i l 0 hi hrepi).1 hmeml
    obtain ⟨sj, hsj, hvj⟩ := (broadcast_get? (uniqueFirst labels) labels scores _ arr hbc
      j l 0 hj hrepj).1 hmeml
    have hss : si = sj := Option.some.inj (hsi ▸ hsj)
    rw [hvi, hvj, hss]
  refine ⟨?_, ?_, ?_⟩
  · intro adata groupby use_rep key_added labels m a' hcat hlen h
    unfold cnv_score at h
    by_cases hg : ((!(hasCol adata groupby)) && (groupby == "cnv_leiden")) = true
    · rw [if_pos hg] at h; exact absurd h (by simp)
    · rw [if_neg hg, hcat] at h
      cases hM : adata.obsm.lookup ("X_" ++ use_rep) with
      | none => rw [hM] at h; exact absurd h (by simp)
      | some M =>
        rw [hM] at h
        simp only [if_pos] at h
        have h2 := Except.ok.inj h
        have ha' : a' = setObsCol adata key_added (ObsCol.num (labels.map (fun c =>
            (((((uniqueFirst labels).map (fun c => (c, meanAbs (filterByLabel labels c M)))).lookup
              c).getD 0 : ℚ) : ℝ)))) := ((Prod.mk.injEq _ _ _ _) ▸ h2).2.symm
        refine ⟨labels.map (fun c =>
            (((((uniqueFirst labels).map (fun c => (c, meanAbs (filterByLabel labels c M)))).lookup
              c).getD 0 : ℚ) : ℝ)), ?_, ?_, ?_⟩
        · rw [ha']
          exact lookup_setCol_self adata.obs key_added _
        · rw [List.length_map]
          exact hlen
        · intro i j l hi hj
          rw [List.get?_map, List.get?_map, hi, hj]
  · intro adata groupby use_raw layer key_added labels m a' hcat hlen h
    unfold ithgex at h
    rw [hcat] at h
    cases hmap : ithgexMapping adata groupby use_raw layer with
    | error e => rw [hmap] at h; exact absurd h (by simp)
    | ok scores =>
      rw [hmap] at h
      simp only [if_pos] at h
      cases hbc : broadcast labels scores (uniqueFirst labels)
          (List.replicate adata.nObs 0) with
      | none => rw [hbc] at h; exact absurd h (by simp)
      | some arr =>
        rw [hbc] at h
        have h2 := Except.ok.inj h
        have ha' : a' = setObsCol adata key_added (ObsCol.num arr) :=
          ((Prod.mk.injEq _ _ _ _) ▸ h2).2.symm
        obtain ⟨hl, hsame⟩ := hbroad adata labels scores arr hlen hbc
        refine ⟨arr, ?_, hl, hsame⟩
        rw [ha']
        exact lookup_setCol_self adata.obs key_added _
  · intro adata groupby use_rep key_added labels m a' hcat hlen h
    unfold ithcna at h
    rw [hcat] at h
    cases hmap : ithcnaMapping adata groupby use_rep with
    | error e => rw [hmap] at h; exact absurd h (by simp)
    | ok scores =>
      rw [hmap] at h
      simp only [if_pos] at h
      cases hbc : broadcast labels scores (uniqueFirst labels)
          (List.replicate adata.nObs 0) with
      | none => rw [hbc] at h; exact absurd h (by simp)
      | some arr =>
        rw [hbc] at h
        have h2 := Except.ok.inj h
        have ha' : a' = setObsCol adata key_added (ObsCol.num arr) :=
          ((Prod.mk.injEq _ _ _ _) ▸ h2).2.symm
        obtain ⟨hl, hsame⟩ := hbroad adata labels scores arr hlen hbc
        refine ⟨arr, ?_, hl, hsame⟩
        rw [ha']
        exact lookup_setCol_self adata.obs key_added _

/-- C5 witness: the invariant instantiated on `exPair` for all three
functions, with the successful `inplace=True` runs discharged by
computation. -/
theorem same_group_same_score_witness :
    (∃ arr : List ℝ, exPairCnvOut.obs.lookup "cnv_score" = some (ObsCol.num arr) ∧
      arr.length = exPair.nObs ∧
      ∀ (i j : Nat) (l : String), (["A", "A"] : List String).get? i = some l →
        (["A", "A"] : List String).get? j = some l → arr.get? i = arr.get? j) ∧
    (∃ arr : List ℝ, exPairGexOut.obs.lookup "ithgex" = some (ObsCol.num arr) ∧
      arr.length = exPair.nObs ∧
      ∀ (i j : Nat) (l : String), (["A", "A"] : List String).get? i = some l →
        (["A", "A"] : List String).get? j = some l → arr.get? i = arr.get? j) ∧
    (∃ arr : List ℝ, exPairCnaOut.obs.lookup "ithgex" = some (ObsCol.num arr) ∧
      arr.length = exPair.nObs ∧
      ∀ (i j : Nat) (l : String), (["A", "A"] : List String).get? i = some l →
        (["A", "A"] : List String).get? j = some l → arr.get? i = arr.get? j) :=
  ⟨same_group_same_score.1 exPair "grp" "cnv" "cnv_score" ["A", "A"] none exPairCnvOut
     rfl rfl rfl,
   same_group_same_score.2.1 exPair "grp" (some false) none "ithgex" ["A", "A"] none
     exPairGexOut rfl rfl rfl,
   same_group_same_score.2.2 exPair "grp" "X_cnv" "ithgex" ["A", "A"] none
     exPairCnaOut rfl rfl rfl⟩

/-- C10: the default output column of `ithcna` is "ithgex" — literally the
same default as `ithgex` itself — so a default-argument `inplace=True`
call of `ithcna` writes its scores under the key "ithgex" (overwriting any
existing binding of that column, e.g. one written by a preceding default
`ithgex` call) and leaves any column named "ithcna" exactly as it was: no
such column is created. -/
theorem ithcna_default_key_overwrites :
    ithcnaDefaultKeyAdded = "ithgex" ∧
    ithcnaDefaultKeyAdded = ithgexDefaultKeyAdded ∧
    (∀ (adata : AnnData) (groupby : String) (labels : List String)
       (scores : List (String × ℝ)) (arr : List ℝ),
       getCat adata groupby = some labels →
       ithcnaMapping adata groupby ithcnaDefaultUseRep = Except.ok scores →
       broadcast labels scores (uniqueFirst labels) (List.replicate adata.nObs 0) =
         some arr →
       ithcna adata groupby ithcnaDefaultUseRep true ithcnaDefaultKeyAdded =
         Except.ok (none, setObsCol adata "ithgex" (ObsCol.num arr)) ∧
       (setObsCol adata "ithgex" (ObsCol.num arr)).obs.lookup "ithcna" =
         adata.obs.lookup "ithcna" ∧
       ∀ c : ObsCol, (setObsCol adata "ithgex" c).obs.lookup "ithgex" = some c) := by
  refine ⟨rfl, rfl, ?_⟩
  intro adata groupby labels scores arr hcat hmap hbc
  refine ⟨?_, ?_, ?_⟩
  · unfold ithcna
    simp only [hcat, hmap, hbc]
    rfl
  · exact lookup_setCol_ne adata.obs "ithgex" "ithcna" (ObsCol.num arr) (by decide)
  · intro c
    exact lookup_setCol_self adata.obs "ithgex" c

/-- C10 witness: on `exPair` the default-key `ithcna` call writes the
"ithgex" column and touches no "ithcna" column. -/
theorem ithcna_default_key_overwrites_witness :
    ithcna exPair "grp" ithcnaDefaultUseRep true ithcnaDefaultKeyAdded =
      Except.ok (none, setObsCol exPair "ithgex" (ObsCol.num [sPairCna, sPairCna])) ∧
    (setObsCol exPair "ithgex" (ObsCol.num [sPairCna, sPairCna])).obs.lookup "ithcna" =
      exPair.obs.lookup "ithcna" ∧
    ∀ c : ObsCol, (setObsCol exPair "ithgex" c).obs.lookup "ithgex" = some c :=
  ithcna_default_key_overwrites.2.2 exPair "grp" ["A", "A"] [("A", sPairCna)]
    [sPairCna, sPairCna] rfl rfl rfl
